import Mathlib

/-!
Verification development for a vacancy-statistics script (`src/main.py`).

The script reads a CSV of job vacancies, converts salaries to RUB with a
fixed conversion table, and folds the records into year- and city-keyed
count/salary statistics.  We embed its data model and operations shallowly:
Python dicts become insertion-ordered association lists, Python numbers
(ints and floats) become `Nat` / `Int` / `ℚ`, and fallible operations
(dict lookup, list indexing, `int`/`float` conversion) return `Option` or
`Except`.
-/

namespace PyMain

/-! ## Python dict keys

The accumulator helpers of the script run `int(key)` inside `try/except`,
so a dict key is either an integer (when the string parses) or the original
string.  `PKey` is the type of such keys. -/

inductive PKey where
  | int : Int → PKey
  | str : String → PKey
deriving DecidableEq, Repr

/-- Whitespace characters stripped by Python's `str.strip()` and matched by
the regex class `\s` (ASCII part). -/
def pyIsSpace (c : Char) : Bool :=
  c = ' ' || c = '\t' || c = '\n' || c = '\r' || c = '\x0b' || c = '\x0c'

/-- Strip leading and trailing whitespace, as Python's `str.strip()`. -/
def pyStrip (l : List Char) : List Char :=
  ((l.dropWhile pyIsSpace).reverse.dropWhile pyIsSpace).reverse

/-- Digit string continuation for Python's `int(str)`: ASCII digits where a
single underscore may stand between two digits. -/
def digitsCore (acc : Nat) : List Char → Option Nat
  | [] => some acc
  | '_' :: c :: rest =>
      if c.isDigit then digitsCore (acc * 10 + (c.toNat - 48)) rest else none
  | ['_'] => none
  | c :: rest =>
      if c.isDigit then digitsCore (acc * 10 + (c.toNat - 48)) rest else none

/-- A nonempty digit string (underscores allowed between digits), as accepted
by Python's `int(str)` after sign and whitespace handling. -/
def digitsVal : List Char → Option Nat
  | [] => none
  | c :: rest => if c.isDigit then digitsCore (c.toNat - 48) rest else none

/-- Model of Python's `int(s)` for a string `s`: surrounding whitespace is
ignored, an optional single sign precedes the digits, and the digits may be
separated by single underscores.  Returns `none` when Python would raise
`ValueError`. -/
def toIntOpt (s : String) : Option Int :=
  match pyStrip s.data with
  | '+' :: rest => (digitsVal rest).map (fun n => (n : Int))
  | '-' :: rest => (digitsVal rest).map (fun n => -(n : Int))
  | l => (digitsVal l).map (fun n => (n : Int))

/-- The `try: key = int(key) except: key = key` pattern shared by
`up_count`, `up_salary`, `dict_init_count` and `dict_init_salary`. -/
def toKey (s : String) : PKey :=
  match toIntOpt s with
  | some n => PKey.int n
  | none => PKey.str s

/-! ## Association lists as insertion-ordered Python dicts -/

/-- Lookup in an association list (Python `dict[k]` / `dict.get(k)`). -/
def lookupA {κ α : Type} [DecidableEq κ] (k : κ) : List (κ × α) → Option α
  | [] => none
  | (k', v) :: rest => if k = k' then some v else lookupA k rest

/-- Assignment `dict[k] = v`: replace in place when the key is present,
append otherwise (Python dicts preserve insertion order). -/
def setA {κ α : Type} [DecidableEq κ] (k : κ) (v : α) :
    List (κ × α) → List (κ × α)
  | [] => [(k, v)]
  | (k', v') :: rest =>
      if k = k' then (k, v) :: rest else (k', v') :: setA k v rest

/-- The keys of a dict, in insertion order. -/
def keysA {κ α : Type} (d : List (κ × α)) : List κ :=
  d.map Prod.fst

/-! ## Currency table and salary records -/

/-- The `currency_to_rub` conversion table of the script, with the float
rates read as exact rationals. -/
def currency_to_rub : List (String × ℚ) :=
  [("AZN", 3568 / 100), ("BYR", 2391 / 100), ("EUR", 599 / 10),
   ("GEL", 2174 / 100), ("KGS", 76 / 100), ("KZT", 13 / 100),
   ("RUR", 1), ("UAH", 164 / 100), ("USD", 6066 / 100),
   ("UZS", 55 / 10000)]

/-- The `Salary` class: both bounds are converted to RUB on construction and
the average is derived from the converted bounds. -/
structure Salary where
  salary_from : ℚ
  salary_to : ℚ
  salary_gross : String
  salary_currency : String
  average_salary : ℚ
deriving DecidableEq, Repr

/-- `Salary.__init__`: multiplies both bounds by the conversion rate of the
currency and stores their midpoint.  Returns `none` when the currency code
is absent from the table (Python raises `KeyError`). -/
def mkSalary (salary_from salary_to : ℚ) (salary_currency salary_gross : String) :
    Option Salary :=
  match lookupA salary_currency currency_to_rub with
  | none => none
  | some r =>
      some { salary_from := salary_from * r
             salary_to := salary_to * r
             salary_gross := salary_gross
             salary_currency := salary_currency
             average_salary := (salary_to * r + salary_from * r) / 2 }

/-- The `Vacancy` class. -/
structure Vacancy where
  name : String
  salary : Salary
  area_name : String
  published_at : String
deriving DecidableEq, Repr

/-! ## `clear_string`: text cleanup

`clear_string` applies, in order: removal of `<...>` tags
(`re.sub(r"<.*?>", "", text)`), `strip()`, replacement of newlines by
a literal `", "` separator, and collapsing of whitespace runs
(`re.sub("\s+", " ", output)`). -/

/-- Scan for the closing `>` of a lazily matched `<.*?>` tag: stops at the
first `>`, fails at a newline (`.` does not match `\n`) or at end of input.
Returns the characters after the `>`. -/
def findClose : List Char → Option (List Char)
  | [] => none
  | c :: rest => if c = '>' then some rest else if c = '\n' then none else findClose rest

theorem findClose_length :
    ∀ (l res : List Char), findClose l = some res → res.length < l.length := by
  intro l
  induction l with
  | nil => intro res h; simp [findClose] at h
  | cons c rest ih =>
      intro res h
      by_cases hc : c = '>'
      · simp [findClose, hc] at h
        simp [← h, List.length_cons, Nat.lt_succ_self]
      · by_cases hn : c = '\n'
        · simp [findClose, hc, hn] at h
        · simp [findClose, hc, hn] at h
          exact Nat.lt_trans (ih res h) (Nat.lt_succ_self _)

/-- `re.sub(r"<.*?>", "", text)` on the character list: each leftmost,
shortest `<...>` group (not spanning a newline) is deleted. -/
def removeTags : List Char → List Char
  | [] => []
  | c :: rest =>
      if c = '<' then
        match hf : findClose rest with
        | some rest' => removeTags rest'
        | none => c :: removeTags rest
      else c :: removeTags rest
termination_by l => l.length
decreasing_by
  · exact Nat.lt_trans (findClose_length rest rest' hf) (Nat.lt_succ_self _)
  · exact Nat.lt_succ_self _
  · exact Nat.lt_succ_self _

/-- `', '.join(output.split('\n'))`: every newline becomes a comma and a
space. -/
def replaceNl : List Char → List Char
  | [] => []
  | c :: rest => if c = '\n' then ',' :: ' ' :: replaceNl rest else c :: replaceNl rest

/-- `re.sub("\s+", " ", output)`: each maximal whitespace run becomes one
space.  The flag records whether the previous character was whitespace. -/
def collapseWs : List Char → Bool → List Char
  | [], _ => []
  | c :: rest, prevWs =>
      if pyIsSpace c then
        if prevWs then collapseWs rest true else ' ' :: collapseWs rest true
      else c :: collapseWs rest false

/-- The `clear_string` function of the script. -/
def clear_string (text : String) : String :=
  let output := removeTags text.data
  let output := pyStrip output
  let output := if output.contains '\n' then replaceNl output else output
  String.mk (collapseWs output false)

/-! ## `csv_filer`: row parsing -/

/-- `csv_filer`: keeps the rows whose count of non-empty fields equals the
header count, then builds for each kept row a dict assigning the i-th header
name to the cleaned i-th kept field. -/
def csv_filer (reader : List (List String)) (list_naming : List String) :
    List (List (String × String)) :=
  let lines := reader.foldl
    (fun acc line =>
      let line_without_empty := line.filter (fun x => x ≠ "")
      if line_without_empty.length = list_naming.length then
        acc ++ [line_without_empty]
      else acc) []
  lines.foldl
    (fun vacancies line =>
      vacancies ++ [(List.range list_naming.length).foldl
        (fun vacancy i =>
          setA (list_naming.getD i "") (clear_string (line.getD i "")) vacancy) []]) []

/-! ## Accumulator helpers -/

/-- `up_count`: increment the counter under the (possibly int-coerced) key,
starting at 1 when the key is new. -/
def up_count (key : String) (d : List (PKey × Nat)) : List (PKey × Nat) :=
  let k := toKey key
  match lookupA k d with
  | some n => setA k (n + 1) d
  | none => setA k 1 d

/-- `up_salary`: under the (possibly int-coerced) key, increment the count
and add `salary` to the running total, starting at `(1, salary)` when the
key is new. -/
def up_salary (key : String) (d : List (PKey × (Nat × ℚ))) (salary : ℚ) :
    List (PKey × (Nat × ℚ)) :=
  let k := toKey key
  match lookupA k d with
  | some p => setA k (p.1 + 1, p.2 + salary) d
  | none => setA k (1, salary) d

/-- `dict_init_count`: put `0` under the (possibly int-coerced) key when it
is absent. -/
def dict_init_count (key : String) (d : List (PKey × Nat)) : List (PKey × Nat) :=
  let k := toKey key
  match lookupA k d with
  | some _ => d
  | none => setA k 0 d

/-- `dict_init_salary`: put `(0, 0)` under the (possibly int-coerced) key
when it is absent. -/
def dict_init_salary (key : String) (d : List (PKey × (Nat × ℚ))) :
    List (PKey × (Nat × ℚ)) :=
  let k := toKey key
  match lookupA k d with
  | some _ => d
  | none => setA k (0, 0) d

/-- `get_average_salary_by_year`: per key, `floor(total / count)`, with the
`ZeroDivisionError` of `count = 0` caught and turned into `0`. -/
def get_average_salary_by_year (d : List (PKey × (Nat × ℚ))) : List (PKey × Int) :=
  d.map (fun p => (p.1, if p.2.1 = 0 then 0 else ⌊p.2.2 / (p.2.1 : ℚ)⌋))

/-! ## `get_statistics`: the aggregation pass -/

/-- The five accumulator dicts built by the loop of `get_statistics`. -/
structure StatsAcc where
  all_count : List (PKey × Nat)
  all_salary : List (PKey × (Nat × ℚ))
  prof_count : List (PKey × Nat)
  prof_salary : List (PKey × (Nat × ℚ))
  city_salary : List (PKey × (Nat × ℚ))
deriving DecidableEq, Repr

/-- Python's `sub in hay` on strings: substring containment. -/
def pyIn (sub hay : String) : Bool :=
  decide (sub.data <:+: hay.data)

/-- One iteration of the loop of `get_statistics`.  Note that the script's
`actual_city` list holds dict keys (`PKey`), while `vacancy.area_name` is a
string, so the membership test only ever matches string keys. -/
def statsStep (prof : String) (ac : List PKey) (acc : StatsAcc) (v : Vacancy) :
    StatsAcc :=
  let is_right_prof := pyIn prof v.name
  let date := v.published_at.take 4
  let pc := dict_init_count date acc.prof_count
  let ps := dict_init_salary date acc.prof_salary
  let allc := up_count date acc.all_count
  let alls := up_salary date acc.all_salary v.salary.average_salary
  let cs :=
    if ac.contains (PKey.str v.area_name) then
      up_salary v.area_name acc.city_salary v.salary.average_salary
    else acc.city_salary
  let pc := if is_right_prof then up_count date pc else pc
  let ps := if is_right_prof then up_salary date ps v.salary.average_salary else ps
  ⟨allc, alls, pc, ps, cs⟩

/-- The full accumulation loop of `get_statistics`. -/
def statsFold (prof : String) (ac : List PKey) (lv : List Vacancy) : StatsAcc :=
  lv.foldl (statsStep prof ac) ⟨[], [], [], [], []⟩

/-- The five dicts returned by `get_statistics`, in the order of the
`return` statement. -/
structure StatsOut where
  all_count : List (PKey × Nat)
  prof_count : List (PKey × Nat)
  all_salary : List (PKey × Int)
  prof_salary : List (PKey × Int)
  city_salary : List (PKey × Int)
deriving DecidableEq, Repr

/-- `get_statistics`: fold the records, then average the salary
accumulators. -/
def get_statistics (list_vacancies : List Vacancy) (prof : String)
    (ac : List PKey) : StatsOut :=
  let acc := statsFold prof ac list_vacancies
  ⟨acc.all_count, acc.prof_count,
   get_average_salary_by_year acc.all_salary,
   get_average_salary_by_year acc.prof_salary,
   get_average_salary_by_year acc.city_salary⟩

/-! ## Significant cities and the script body -/

/-- The `actual_city` loop of the script: keep the keys of `city_count`
whose count divided by the total is at least `0.01`. -/
def actual_city (city_count : List (PKey × Nat)) (total : Nat) : List PKey :=
  city_count.foldl
    (fun acc p => if (1 : ℚ) / 100 ≤ (p.2 : ℚ) / (total : ℚ) then acc ++ [p.1] else acc)
    []

/-- Model of Python's `float(s)` restricted to the decimal forms the data
uses: optional surrounding whitespace, optional sign, digits with an
optional fractional part. -/
def pyFloatOpt (s : String) : Option ℚ :=
  let core : List Char → Option ℚ := fun l =>
    let intPart := l.takeWhile Char.isDigit
    let rest := l.dropWhile Char.isDigit
    match rest with
    | [] =>
        if intPart = [] then none
        else (digitsVal intPart).map (fun n => (n : ℚ))
    | '.' :: frac =>
        if frac.all Char.isDigit ∧ (intPart ≠ [] ∨ frac ≠ []) then
          some (((digitsVal intPart).getD 0 : ℚ)
            + ((digitsVal frac).getD 0 : ℚ) / ((10 : ℚ) ^ frac.length))
        else none
    | _ => none
  match pyStrip s.data with
  | '+' :: rest => core rest
  | '-' :: rest => (core rest).map Neg.neg
  | l => core l

/-- Errors a run of the script body can raise. -/
inductive ScriptErr where
  | keyError
  | valueError
  | indexError
  | zeroDivError
deriving DecidableEq, Repr

/-- The run modes reachable from the dispatch at the end of the script. -/
inductive RunMode where
  | emptyMsg
  | excel
  | image
  | tableOut
  | statsOut
deriving DecidableEq, Repr

/-- The `if/elif` dispatch at the end of the script.  The second `elif`
repeats the condition `command == 'ексель'` of the first. -/
def dispatch (head : List String) (command : String) : RunMode :=
  if head.length = 0 then RunMode.emptyMsg
  else if command = "ексель" then RunMode.excel
  else if command = "ексель" then RunMode.image
  else if command = "таблица" then RunMode.tableOut
  else RunMode.statsOut

/-- Construction of one `Vacancy` from a parsed row dict, as in the script
loop: `Salary(v["salary_from"], v["salary_to"], v["salary_currency"])`, then
`Vacancy(v['name'], salary, v['area_name'], v['published_at'])`.  Missing
fields raise `KeyError`, non-numeric bounds `ValueError`. -/
def buildVacancy (v : List (String × String)) : Except ScriptErr Vacancy :=
  match lookupA "salary_from" v with
  | none => .error .keyError
  | some sfRaw =>
    match lookupA "salary_to" v with
    | none => .error .keyError
    | some stRaw =>
      match lookupA "salary_currency" v with
      | none => .error .keyError
      | some cur =>
        match pyFloatOpt sfRaw with
        | none => .error .valueError
        | some sf =>
          match pyFloatOpt stRaw with
          | none => .error .valueError
          | some st =>
            match mkSalary sf st cur "" with
            | none => .error .keyError
            | some sal =>
              match lookupA "name" v, lookupA "area_name" v,
                    lookupA "published_at" v with
              | some nm, some area, some pub =>
                  .ok ⟨nm, sal, area, pub⟩
              | _, _, _ => .error .keyError

/-- The loop building `list_vacancies` and `city_count` from the parsed
rows. -/
def buildAll (vs : List (List (String × String))) :
    Except ScriptErr (List Vacancy × List (PKey × Nat)) :=
  vs.foldlM
    (fun acc v => do
      let vac ← buildVacancy v
      pure (acc.1 ++ [vac], up_count vac.area_name acc.2))
    ([], [])

/-- `fill_table`: sets the field names from `vacancies[0].keys()` — an
`IndexError` when `vacancies` is empty — then renders one numbered row per
vacancy.  `vacancies` is the script-level global the function reads for the
header; `vac_data` is its argument. -/
def fill_table (vac_data vacancies : List (List (String × String))) :
    Option (List String × List (List String)) :=
  match vacancies.head? with
  | none => none
  | some v0 =>
      some ("№" :: v0.map Prod.fst,
        vac_data.enum.map (fun p => toString (p.1 + 1) :: p.2.map Prod.snd))

/-- The profession hardcoded at the top of the script body. -/
def profession : String := "аналитик"

/-- The guarded `actual_city` computation of the script body: iterating the
keys of a nonempty `city_count` divides by `len(list_vacancies)`, a
`ZeroDivisionError` when that length is 0. -/
def actualCityRun (city_count : List (PKey × Nat)) (total : Nat) :
    Except ScriptErr (List PKey) :=
  if city_count ≠ [] ∧ total = 0 then .error .zeroDivError
  else .ok (actual_city city_count total)

/-- The script body from `csv_filer` to the final dispatch, on the lines and
header returned by `csv_reader`.  Returns the run mode reached, or the
uncaught exception that ends the run. -/
def runScript (lines : List (List String)) (head : List String)
    (command : String) : Except ScriptErr RunMode :=
  let vacancies := csv_filer lines head
  match buildAll vacancies with
  | .error e => .error e
  | .ok (list_vacancies, city_count) =>
    match fill_table vacancies vacancies with
    | none => .error .indexError
    | some _ =>
      match actualCityRun city_count list_vacancies.length with
      | .error e => .error e
      | .ok ac =>
        let _stats := get_statistics list_vacancies profession ac
        .ok (dispatch head command)

/-! ## Association list lemmas -/

theorem lookupA_setA_self {κ α : Type} [DecidableEq κ] (k : κ) (v : α)
    (d : List (κ × α)) : lookupA k (setA k v d) = some v := by
  induction d with
  | nil => simp [setA, lookupA]
  | cons p rest ih =>
      by_cases h : k = p.1
      · simp [setA, h, lookupA]
      · simp [setA, h, lookupA, ih]

theorem lookupA_setA_ne {κ α : Type} [DecidableEq κ] {k k' : κ} (h : k' ≠ k)
    (v : α) (d : List (κ × α)) : lookupA k' (setA k v d) = lookupA k' d := by
  induction d with
  | nil => simp [setA, lookupA, h]
  | cons p rest ih =>
      by_cases hk : k = p.1
      · subst hk
        simp [setA, lookupA, h, ih]
      · by_cases hk' : k' = p.1
        · simp [setA, lookupA, hk, hk']
        · simp [setA, lookupA, hk, hk', ih]

theorem mem_keysA_iff_lookupA {κ α : Type} [DecidableEq κ] (k : κ)
    (d : List (κ × α)) : k ∈ keysA d ↔ (lookupA k d).isSome := by
  induction d with
  | nil => simp [keysA, lookupA]
  | cons p rest ih =>
      have hk : keysA (p :: rest) = p.1 :: keysA rest := rfl
      rw [hk, List.mem_cons]
      by_cases h : k = p.1
      · simp [lookupA, h]
      · simp [lookupA, h, ih]

/-! ## Lookup behaviour of the accumulator helpers -/

theorem up_count_lookup_self (key : String) (d : List (PKey × Nat)) :
    lookupA (toKey key) (up_count key d) =
      some ((lookupA (toKey key) d).getD 0 + 1) := by
  unfold up_count
  cases h : lookupA (toKey key) d <;> simp [h, lookupA_setA_self]

theorem up_count_lookup_ne (key : String) (d : List (PKey × Nat)) {k : PKey}
    (h : k ≠ toKey key) : lookupA k (up_count key d) = lookupA k d := by
  unfold up_count
  cases h' : lookupA (toKey key) d <;> simp [h', lookupA_setA_ne h]

theorem up_salary_lookup_self (key : String) (d : List (PKey × (Nat × ℚ)))
    (salary : ℚ) :
    lookupA (toKey key) (up_salary key d salary) =
      some (((lookupA (toKey key) d).getD (0, 0)).1 + 1,
            ((lookupA (toKey key) d).getD (0, 0)).2 + salary) := by
  unfold up_salary
  cases h : lookupA (toKey key) d <;> simp [h, lookupA_setA_self]

theorem up_salary_lookup_ne (key : String) (d : List (PKey × (Nat × ℚ)))
    (salary : ℚ) {k : PKey} (h : k ≠ toKey key) :
    lookupA k (up_salary key d salary) = lookupA k d := by
  unfold up_salary
  cases h' : lookupA (toKey key) d <;> simp [h', lookupA_setA_ne h]

theorem dict_init_count_lookup_self (key : String) (d : List (PKey × Nat)) :
    lookupA (toKey key) (dict_init_count key d) =
      some ((lookupA (toKey key) d).getD 0) := by
  unfold dict_init_count
  cases h : lookupA (toKey key) d <;> simp [h, lookupA_setA_self]

theorem dict_init_count_lookup_ne (key : String) (d : List (PKey × Nat))
    {k : PKey} (h : k ≠ toKey key) :
    lookupA k (dict_init_count key d) = lookupA k d := by
  unfold dict_init_count
  cases h' : lookupA (toKey key) d <;> simp [h', lookupA_setA_ne h]

theorem dict_init_salary_lookup_self (key : String)
    (d : List (PKey × (Nat × ℚ))) :
    lookupA (toKey key) (dict_init_salary key d) =
      some ((lookupA (toKey key) d).getD (0, 0)) := by
  unfold dict_init_salary
  cases h : lookupA (toKey key) d <;> simp [h, lookupA_setA_self]

theorem dict_init_salary_lookup_ne (key : String)
    (d : List (PKey × (Nat × ℚ))) {k : PKey} (h : k ≠ toKey key) :
    lookupA k (dict_init_salary key d) = lookupA k d := by
  unfold dict_init_salary
  cases h' : lookupA (toKey key) d <;> simp [h', lookupA_setA_ne h]

theorem lookupA_get_average_salary_by_year (d : List (PKey × (Nat × ℚ)))
    (k : PKey) :
    lookupA k (get_average_salary_by_year d) =
      (lookupA k d).map
        (fun p => if p.1 = 0 then 0 else ⌊p.2 / (p.1 : ℚ)⌋) := by
  induction d with
  | nil => simp [get_average_salary_by_year, lookupA]
  | cons p rest ih =>
      by_cases h : k = p.1
      · simp [get_average_salary_by_year, lookupA, h]
      · simpa [get_average_salary_by_year, lookupA, h] using ih

/-! ## Counting functions describing the aggregation -/

/-- Number of records whose year prefix coerces to the key `k`. -/
def yearCount (k : PKey) (lv : List Vacancy) : Nat :=
  lv.countP (fun v => toKey (v.published_at.take 4) == k)

/-- Number of records of year key `k` whose name contains the target
profession. -/
def profCount (prof : String) (k : PKey) (lv : List Vacancy) : Nat :=
  lv.countP (fun v => (toKey (v.published_at.take 4) == k) && pyIn prof v.name)

/-- Sum of the average salaries of the records of year key `k` whose name
contains the target profession. -/
def profSum (prof : String) (k : PKey) (lv : List Vacancy) : ℚ :=
  (lv.map (fun v =>
    if (toKey (v.published_at.take 4) == k) && pyIn prof v.name then
      v.salary.average_salary
    else 0)).sum

theorem statsStep_all_count (prof : String) (ac : List PKey) (acc : StatsAcc)
    (v : Vacancy) :
    (statsStep prof ac acc v).all_count =
      up_count (v.published_at.take 4) acc.all_count := rfl

theorem statsStep_prof_count (prof : String) (ac : List PKey) (acc : StatsAcc)
    (v : Vacancy) :
    (statsStep prof ac acc v).prof_count =
      (if pyIn prof v.name then
        up_count (v.published_at.take 4)
          (dict_init_count (v.published_at.take 4) acc.prof_count)
      else dict_init_count (v.published_at.take 4) acc.prof_count) := rfl

theorem statsStep_prof_salary (prof : String) (ac : List PKey) (acc : StatsAcc)
    (v : Vacancy) :
    (statsStep prof ac acc v).prof_salary =
      (if pyIn prof v.name then
        up_salary (v.published_at.take 4)
          (dict_init_salary (v.published_at.take 4) acc.prof_salary)
          v.salary.average_salary
      else dict_init_salary (v.published_at.take 4) acc.prof_salary) := rfl

/-- Lookup characterization of the `all_count` accumulator over the fold. -/
theorem foldl_all_count (prof : String) (ac : List PKey) :
    ∀ (lv : List Vacancy) (acc : StatsAcc) (k : PKey),
    lookupA k (lv.foldl (statsStep prof ac) acc).all_count =
      match lookupA k acc.all_count with
      | some n => some (n + yearCount k lv)
      | none => if yearCount k lv = 0 then none else some (yearCount k lv) := by
  intro lv
  induction lv with
  | nil =>
      intro acc k
      simp only [List.foldl_nil, yearCount, List.countP_nil]
      cases lookupA k acc.all_count <;> simp
  | cons v lv ih =>
      intro acc k
      rw [List.foldl_cons, ih]
      by_cases hk : toKey (v.published_at.take 4) = k
      · have h1 : lookupA k (statsStep prof ac acc v).all_count
            = some ((lookupA k acc.all_count).getD 0 + 1) := by
          rw [statsStep_all_count, ← hk]
          exact up_count_lookup_self _ _
        have hy : yearCount k (v :: lv) = yearCount k lv + 1 := by
          simp [yearCount, List.countP_cons, hk]
        rw [h1, hy]
        cases h : lookupA k acc.all_count <;> simp [h] <;> omega
      · have h1 : lookupA k (statsStep prof ac acc v).all_count
            = lookupA k acc.all_count := by
          rw [statsStep_all_count]
          exact up_count_lookup_ne _ _ (fun he => hk he.symm)
        have hy : yearCount k (v :: lv) = yearCount k lv := by
          simp [yearCount, List.countP_cons, hk]
        rw [h1, hy]

/-- Lookup characterization of the `prof_count` accumulator over the fold:
the key is initialized as soon as its year appears, whether or not the
record matches the profession. -/
theorem foldl_prof_count (prof : String) (ac : List PKey) :
    ∀ (lv : List Vacancy) (acc : StatsAcc) (k : PKey),
    lookupA k (lv.foldl (statsStep prof ac) acc).prof_count =
      match lookupA k acc.prof_count with
      | some n => some (n + profCount prof k lv)
      | none =>
          if yearCount k lv = 0 then none else some (profCount prof k lv) := by
  intro lv
  induction lv with
  | nil =>
      intro acc k
      simp only [List.foldl_nil, yearCount, profCount, List.countP_nil]
      cases lookupA k acc.prof_count <;> simp
  | cons v lv ih =>
      intro acc k
      rw [List.foldl_cons, ih]
      by_cases hk : toKey (v.published_at.take 4) = k
      · have hy : yearCount k (v :: lv) = yearCount k lv + 1 := by
          simp [yearCount, List.countP_cons, hk]
        cases hp : pyIn prof v.name with
        | true =>
            have h1 : lookupA k (statsStep prof ac acc v).prof_count
                = some ((lookupA k acc.prof_count).getD 0 + 1) := by
              rw [statsStep_prof_count, hp, if_pos rfl, ← hk,
                up_count_lookup_self, dict_init_count_lookup_self]
              simp
            have hc : profCount prof k (v :: lv) = profCount prof k lv + 1 := by
              simp [profCount, List.countP_cons, hk, hp]
            rw [h1, hy, hc]
            cases h : lookupA k acc.prof_count <;> simp [h] <;> omega
        | false =>
            have h1 : lookupA k (statsStep prof ac acc v).prof_count
                = some ((lookupA k acc.prof_count).getD 0) := by
              rw [statsStep_prof_count, hp, if_neg (by simp), ← hk,
                dict_init_count_lookup_self]
            have hc : profCount prof k (v :: lv) = profCount prof k lv := by
              simp [profCount, List.countP_cons, hk, hp]
            rw [h1, hy, hc]
            cases h : lookupA k acc.prof_count <;> simp [h]
      · have hne : k ≠ toKey (v.published_at.take 4) := fun he => hk he.symm
        have h1 : lookupA k (statsStep prof ac acc v).prof_count
            = lookupA k acc.prof_count := by
          rw [statsStep_prof_count]
          cases hp : pyIn prof v.name <;>
            simp [up_count_lookup_ne _ _ hne, dict_init_count_lookup_ne _ _ hne]
        have hy : yearCount k (v :: lv) = yearCount k lv := by
          simp [yearCount, List.countP_cons, hk]
        have hc : profCount prof k (v :: lv) = profCount prof k lv := by
          simp [profCount, List.countP_cons, hk]
        rw [h1, hy, hc]

/-- Lookup characterization of the `prof_salary` accumulator over the fold. -/
theorem foldl_prof_salary (prof : String) (ac : List PKey) :
    ∀ (lv : List Vacancy) (acc : StatsAcc) (k : PKey),
    lookupA k (lv.foldl (statsStep prof ac) acc).prof_salary =
      match lookupA k acc.prof_salary with
      | some p => some (p.1 + profCount prof k lv, p.2 + profSum prof k lv)
      | none =>
          if yearCount k lv = 0 then none
          else some (profCount prof k lv, profSum prof k lv) := by
  intro lv
  induction lv with
  | nil =>
      intro acc k
      simp only [List.foldl_nil, yearCount, profCount, profSum,
        List.countP_nil, List.map_nil, List.sum_nil]
      cases lookupA k acc.prof_salary <;> simp
  | cons v lv ih =>
      intro acc k
      rw [List.foldl_cons, ih]
      by_cases hk : toKey (v.published_at.take 4) = k
      · have hy : yearCount k (v :: lv) = yearCount k lv + 1 := by
          simp [yearCount, List.countP_cons, hk]
        cases hp : pyIn prof v.name with
        | true =>
            have h1 : lookupA k (statsStep prof ac acc v).prof_salary
                = some (((lookupA k acc.prof_salary).getD (0, 0)).1 + 1,
                        ((lookupA k acc.prof_salary).getD (0, 0)).2
                          + v.salary.average_salary) := by
              rw [statsStep_prof_salary, hp, if_pos rfl, ← hk,
                up_salary_lookup_self, dict_init_salary_lookup_self]
              simp
            have hc : profCount prof k (v :: lv) = profCount prof k lv + 1 := by
              simp [profCount, List.countP_cons, hk, hp]
            have hs : profSum prof k (v :: lv)
                = v.salary.average_salary + profSum prof k lv := by
              simp [profSum, hk, hp]
            rw [h1, hy, hc, hs]
            cases h : lookupA k acc.prof_salary with
            | none => simp; ring
            | some p => simp; constructor
                        · omega
                        · ring
        | false =>
            have h1 : lookupA k (statsStep prof ac acc v).prof_salary
                = some ((lookupA k acc.prof_salary).getD (0, 0)) := by
              rw [statsStep_prof_salary, hp, if_neg (by simp), ← hk,
                dict_init_salary_lookup_self]
            have hc : profCount prof k (v :: lv) = profCount prof k lv := by
              simp [profCount, List.countP_cons, hk, hp]
            have hs : profSum prof k (v :: lv) = profSum prof k lv := by
              simp [profSum, hk, hp]
            rw [h1, hy, hc, hs]
            cases h : lookupA k acc.prof_salary <;> simp [h]
      · have hne : k ≠ toKey (v.published_at.take 4) := fun he => hk he.symm
        have h1 : lookupA k (statsStep prof ac acc v).prof_salary
            = lookupA k acc.prof_salary := by
          rw [statsStep_prof_salary]
          cases hp : pyIn prof v.name <;>
            simp [up_salary_lookup_ne _ _ _ hne, dict_init_salary_lookup_ne _ _ hne]
        have hy : yearCount k (v :: lv) = yearCount k lv := by
          simp [yearCount, List.countP_cons, hk]
        have hc : profCount prof k (v :: lv) = profCount prof k lv := by
          simp [profCount, List.countP_cons, hk]
        have hs : profSum prof k (v :: lv) = profSum prof k lv := by
          simp [profSum, hk]
        rw [h1, hy, hc, hs]

/-! ## Lemmas about the two loops of `csv_filer` -/

theorem foldl_append_singleton {α β : Type} (g : α → β) :
    ∀ (l : List α) (acc : List β),
      l.foldl (fun vs x => vs ++ [g x]) acc = acc ++ l.map g := by
  intro l
  induction l with
  | nil => intro acc; simp
  | cons x l ih => intro acc; simp [ih]

theorem foldl_filter_append (n : Nat) :
    ∀ (reader : List (List String)) (acc : List (List String)),
      reader.foldl
        (fun acc line =>
          if (line.filter (fun x => x ≠ "")).length = n then
            acc ++ [line.filter (fun x => x ≠ "")]
          else acc) acc
      = acc ++ reader.filterMap (fun line =>
          if (line.filter (fun x => x ≠ "")).length = n then
            some (line.filter (fun x => x ≠ ""))
          else none) := by
  intro reader
  induction reader with
  | nil => intro acc; simp
  | cons line reader ih =>
      intro acc
      rw [List.foldl_cons, List.filterMap_cons]
      by_cases h : (line.filter (fun x => x ≠ "")).length = n
      · simp only [h, if_pos rfl, ih]
        simp
      · simp only [h, if_neg, ih]
        simp [h]

theorem rangeFold_eq_zipFold (f : String → String) :
    ∀ (names vals : List String) (d0 : List (String × String)),
      vals.length = names.length →
      (List.range names.length).foldl
        (fun d i => setA (names.getD i "") (f (vals.getD i "")) d) d0
      = (names.zip (vals.map f)).foldl (fun d kv => setA kv.1 kv.2 d) d0 := by
  intro names
  induction names with
  | nil => intro vals d0 h; simp
  | cons nm names ih =>
      intro vals d0 h
      cases vals with
      | nil => simp at h
      | cons v vals' =>
          simp only [List.length_cons] at h
          have h' : vals'.length = names.length := by omega
          rw [List.length_cons, List.range_succ_eq_map, List.foldl_cons,
            List.foldl_map]
          simp only [List.getD_cons_zero, Nat.succ_eq_add_one,
            List.getD_cons_succ]
          rw [List.map_cons, List.zip_cons_cons, List.foldl_cons]
          exact ih vals' _ h'

/-! ## Claims -/

/-- C1: for every salary record whose currency code is present in the
conversion table with rate `r`, the constructed `Salary` has
`average_salary = (from * r + to * r) / 2` in the reference currency. -/
theorem claim_C1 (salary_from salary_to : ℚ) (cur : String) (r : ℚ)
    (h : lookupA cur currency_to_rub = some r) :
    ∃ s, mkSalary salary_from salary_to cur "" = some s
      ∧ s.average_salary = (salary_from * r + salary_to * r) / 2 := by
  refine ⟨{ salary_from := salary_from * r, salary_to := salary_to * r,
            salary_gross := "", salary_currency := cur,
            average_salary := (salary_to * r + salary_from * r) / 2 }, ?_, ?_⟩
  · unfold mkSalary
    rw [h]
  · show (salary_to * r + salary_from * r) / 2 = (salary_from * r + salary_to * r) / 2
    ring

/-- Witness for C1: the spec scenario — currency "USD" with `from = 1000`,
`to = 2000` and rate `60.66` yields average `(60660 + 121320) / 2 = 90990`. -/
theorem claim_C1_witness :
    ∃ s, mkSalary 1000 2000 "USD" "" = some s ∧ s.average_salary = 90990 := by
  obtain ⟨s, hs, havg⟩ := claim_C1 1000 2000 "USD" (6066 / 100) (by rfl)
  exact ⟨s, hs, by rw [havg]; norm_num⟩

/-- C4: the per-key average derivation returns `floor(total / count)` for a
key with positive count and `0` for a key with count `0`; the division by
zero is guarded (the function is total). -/
theorem claim_C4 (d : List (PKey × (Nat × ℚ))) (k : PKey) (c : Nat) (t : ℚ)
    (h : lookupA k d = some (c, t)) :
    lookupA k (get_average_salary_by_year d) =
      some (if c = 0 then 0 else ⌊t / (c : ℚ)⌋) := by
  rw [lookupA_get_average_salary_by_year, h]
  rfl

/-- Witness for C4: a key with count 0 averages to 0; a key with count 2 and
total 5 averages to `floor(5 / 2) = 2`. -/
theorem claim_C4_witness :
    lookupA (PKey.int 2022)
        (get_average_salary_by_year [(PKey.int 2022, (0, 5))]) = some 0
    ∧ lookupA (PKey.int 2023)
        (get_average_salary_by_year [(PKey.int 2023, (2, 5))]) = some 2 := by
  constructor
  · rw [claim_C4 [(PKey.int 2022, (0, 5))] (PKey.int 2022) 0 5 (by decide)]
    norm_num
  · rw [claim_C4 [(PKey.int 2023, (2, 5))] (PKey.int 2023) 2 5 (by decide)]
    norm_num

theorem actual_city_foldl (total : Nat) :
    ∀ (cc : List (PKey × Nat)) (acc : List PKey),
      cc.foldl
        (fun acc p =>
          if (1 : ℚ) / 100 ≤ (p.2 : ℚ) / (total : ℚ) then acc ++ [p.1] else acc)
        acc
      = acc ++ (cc.filter
          (fun p => (1 : ℚ) / 100 ≤ (p.2 : ℚ) / (total : ℚ))).map Prod.fst := by
  intro cc
  induction cc with
  | nil => intro acc; simp
  | cons p cc ih =>
      intro acc
      rw [List.foldl_cons, List.filter_cons]
      by_cases h : (1 : ℚ) / 100 ≤ (p.2 : ℚ) / (total : ℚ)
      · rw [if_pos h, ih, if_pos (show decide ((1 : ℚ) / 100 ≤ (p.2 : ℚ) / (total : ℚ)) = true by simpa using h)]
        simp
      · rw [if_neg h, ih, if_neg (show ¬decide ((1 : ℚ) / 100 ≤ (p.2 : ℚ) / (total : ℚ)) = true by simpa using h)]

/-- C5: a city is in the significant set exactly when its count over the
total is at least `0.01`; the threshold comparison is inclusive. -/
theorem claim_C5 (city_count : List (PKey × Nat)) (total : Nat)
    (htotal : 0 < total) (c : PKey) :
    c ∈ actual_city city_count total ↔
      ∃ n, (c, n) ∈ city_count ∧ (1 : ℚ) / 100 ≤ (n : ℚ) / (total : ℚ) := by
  unfold actual_city
  rw [actual_city_foldl, List.nil_append, List.mem_map]
  constructor
  · rintro ⟨p, hp, rfl⟩
    rw [List.mem_filter] at hp
    exact ⟨p.2, hp.1, by simpa using hp.2⟩
  · rintro ⟨n, hn, hshare⟩
    exact ⟨(c, n), List.mem_filter.mpr ⟨hn, by simpa using hshare⟩, rfl⟩

/-- Witness for C5: a city with exactly 1 vacancy out of 100 — share exactly
`0.01` — is included. -/
theorem claim_C5_witness :
    PKey.str "A" ∈ actual_city [(PKey.str "A", 1)] 100 := by
  refine (claim_C5 [(PKey.str "A", 1)] 100 (by norm_num) (PKey.str "A")).mpr ?_
  exact ⟨1, by decide, by norm_num⟩

/-- C2: the row parser keeps exactly the rows whose number of non-empty
fields equals the number of header names, assigning the i-th non-empty
field (cleaned) to the i-th header name, and silently drops every other
row; in particular a row with empty fields is still accepted when the
remaining field count matches the header count. -/
theorem claim_C2 :
    (∀ (reader : List (List String)) (list_naming : List String),
      csv_filer reader list_naming =
        reader.filterMap (fun line =>
          if (line.filter (fun x => x ≠ "")).length = list_naming.length then
            some ((list_naming.zip
                ((line.filter (fun x => x ≠ "")).map clear_string)).foldl
              (fun d kv => setA kv.1 kv.2 d) [])
          else none))
    ∧ csv_filer [["a", "", "b"]] ["h1", "h2"] = [[("h1", "a"), ("h2", "b")]] := by
  have hmain : ∀ (reader : List (List String)) (list_naming : List String),
      csv_filer reader list_naming =
        reader.filterMap (fun line =>
          if (line.filter (fun x => x ≠ "")).length = list_naming.length then
            some ((list_naming.zip
                ((line.filter (fun x => x ≠ "")).map clear_string)).foldl
              (fun d kv => setA kv.1 kv.2 d) [])
          else none) := by
    intro reader naming
    simp only [csv_filer]
    rw [foldl_filter_append, List.nil_append, foldl_append_singleton,
      List.nil_append, List.map_filterMap]
    congr 1
    funext line
    by_cases hc : (line.filter (fun x => x ≠ "")).length = naming.length
    · simp only [hc, if_pos rfl, Option.map_some']
      exact congrArg some (rangeFold_eq_zipFold clear_string naming _ [] hc)
    · rw [if_neg hc, if_neg hc]
      rfl
  refine ⟨hmain, ?_⟩
  rw [hmain]
  simp [clear_string, removeTags, findClose, pyStrip, pyIsSpace, collapseWs,
    replaceNl, setA]

/-- Two records whose distinct year prefixes `"0123"` and `"+123"` coerce to
the same integer key `123`. -/
def cexVacA : Vacancy := ⟨"a", ⟨0, 0, "", "RUR", 0⟩, "CityA", "0123-01-01"⟩

def cexVacB : Vacancy := ⟨"b", ⟨0, 0, "", "RUR", 0⟩, "CityB", "+123-01-01"⟩

def cexVacC : Vacancy := ⟨"c", ⟨0, 0, "", "RUR", 0⟩, "CityC", "2022-01-01"⟩

/-- C3 counterexample: with records of year prefixes `"0123"` and `"+123"`,
both stored under the coerced key `123`, the count found in `all_count` for
the year `"0123"` is 2 although only one record has that year prefix — the
claimed per-year equality fails at this input. -/
theorem claim_C3_counterexample :
    lookupA (toKey "0123")
        (get_statistics [cexVacA, cexVacB] "x" []).all_count = some 2
    ∧ [cexVacA, cexVacB].countP (fun v => v.published_at.take 4 == "0123") = 1 := by
  constructor <;> decide

/-- C3 (amended): for every year prefix `y` appearing in the input, the
entry of `all_count` under the coerced key of `y` equals the number of
records whose year prefix coerces to the same key as `y` (rather than the
number whose prefix is literally `y`). -/
theorem claim_C3_amended (lv : List Vacancy) (prof : String) (ac : List PKey)
    (y : String) (h : ∃ v ∈ lv, v.published_at.take 4 = y) :
    lookupA (toKey y) (get_statistics lv prof ac).all_count
      = some (lv.countP (fun v => toKey (v.published_at.take 4) == toKey y)) := by
  have hpos : 0 < yearCount (toKey y) lv := by
    obtain ⟨v, hv, hpre⟩ := h
    refine List.countP_pos_iff.mpr ⟨v, hv, ?_⟩
    simp [hpre]
  have hfold := foldl_all_count prof ac lv ⟨[], [], [], [], []⟩ (toKey y)
  simp only [lookupA] at hfold
  rw [show (get_statistics lv prof ac).all_count
      = (List.foldl (statsStep prof ac) ⟨[], [], [], [], []⟩ lv).all_count from rfl,
    hfold, if_neg (Nat.pos_iff_ne_zero.mp hpos)]
  rfl

/-- Witness for the amended C3: a single record of year `"2022"` gives
`all_count[2022] = 1`. -/
theorem claim_C3_amended_witness :
    lookupA (toKey "2022") (get_statistics [cexVacC] "x" []).all_count
      = some ([cexVacC].countP
          (fun v => toKey (v.published_at.take 4) == toKey "2022")) :=
  claim_C3_amended [cexVacC] "x" [] "2022" ⟨cexVacC, by decide, by decide⟩

/-- C6: every year key present in the overall count mapping is also present
in the profession-filtered count and salary mappings, with value 0 in both
when no record of that year matched the profession. -/
theorem claim_C6 (lv : List Vacancy) (prof : String) (ac : List PKey)
    (k : PKey) (h : k ∈ keysA (get_statistics lv prof ac).all_count) :
    k ∈ keysA (get_statistics lv prof ac).prof_count
    ∧ k ∈ keysA (get_statistics lv prof ac).prof_salary
    ∧ (profCount prof k lv = 0 →
        lookupA k (get_statistics lv prof ac).prof_count = some 0
        ∧ lookupA k (get_statistics lv prof ac).prof_salary = some 0) := by
  have hy : yearCount k lv ≠ 0 := by
    rw [mem_keysA_iff_lookupA] at h
    have hfold := foldl_all_count prof ac lv ⟨[], [], [], [], []⟩ k
    simp only [lookupA] at hfold
    intro h0
    rw [show (get_statistics lv prof ac).all_count
        = (List.foldl (statsStep prof ac) ⟨[], [], [], [], []⟩ lv).all_count from rfl,
      hfold, if_pos h0] at h
    simp at h
  have hpc := foldl_prof_count prof ac lv ⟨[], [], [], [], []⟩ k
  simp only [lookupA] at hpc
  have hpc' : lookupA k (get_statistics lv prof ac).prof_count
      = some (profCount prof k lv) := by
    rw [show (get_statistics lv prof ac).prof_count
        = (List.foldl (statsStep prof ac) ⟨[], [], [], [], []⟩ lv).prof_count from rfl,
      hpc, if_neg hy]
  have hps := foldl_prof_salary prof ac lv ⟨[], [], [], [], []⟩ k
  simp only [lookupA] at hps
  have hps' : lookupA k (get_statistics lv prof ac).prof_salary
      = some (if profCount prof k lv = 0 then 0
          else ⌊profSum prof k lv / (profCount prof k lv : ℚ)⌋) := by
    rw [show (get_statistics lv prof ac).prof_salary
        = get_average_salary_by_year
            (List.foldl (statsStep prof ac) ⟨[], [], [], [], []⟩ lv).prof_salary from rfl,
      lookupA_get_average_salary_by_year, hps, if_neg hy]
    rfl
  refine ⟨?_, ?_, ?_⟩
  · rw [mem_keysA_iff_lookupA, hpc']
    rfl
  · rw [mem_keysA_iff_lookupA, hps']
    rfl
  · intro h0
    exact ⟨by rw [hpc', h0], by rw [hps', h0]; simp⟩

/-- Witness for C6: one record of year 2022 whose name does not contain the
profession — the year key is present in both profession mappings with
value 0. -/
theorem claim_C6_witness :
    PKey.int 2022 ∈ keysA (get_statistics [cexVacC] "зз" []).prof_count
    ∧ lookupA (PKey.int 2022) (get_statistics [cexVacC] "зз" []).prof_salary
        = some 0 := by
  have h := claim_C6 [cexVacC] "зз" [] (PKey.int 2022) (by decide)
  exact ⟨h.1, (h.2.2 (by decide)).2⟩

/-- The salary of the C7 scenario: 100000–200000 RUR, average 150000. -/
def c7Salary : Salary := ⟨100000, 200000, "", "RUR", 150000⟩

/-- The single record of the C7 scenario. -/
def c7Vac : Vacancy := ⟨"аналитик данных", c7Salary, "Москва", "2022-01-01"⟩

/-- C7 counterexample: on the scenario input the mappings are not keyed by
the string `"2022"` — the claimed equalities fail. -/
theorem claim_C7_counterexample :
    ¬ ((get_statistics [c7Vac] "аналитик" [PKey.str "Москва"]).all_salary
          = [(PKey.str "2022", 150000)]
      ∧ (get_statistics [c7Vac] "аналитик" [PKey.str "Москва"]).prof_salary
          = [(PKey.str "2022", 150000)]
      ∧ (get_statistics [c7Vac] "аналитик" [PKey.str "Москва"]).all_count
          = [(PKey.str "2022", 1)]) := by
  intro h
  exact absurd h.2.2 (by decide)

/-- C7 (amended): on the scenario input the aggregation yields
`all_salary = {2022: 150000}`, `prof_salary = {2022: 150000}` and
`all_count = {2022: 1}`, keyed by the integer 2022 (the year string is
coerced by `int()` in the accumulator helpers). -/
theorem claim_C7_amended :
    mkSalary 100000 200000 "RUR" "" = some c7Salary
    ∧ (get_statistics [c7Vac] "аналитик" [PKey.str "Москва"]).all_salary
        = [(PKey.int 2022, 150000)]
    ∧ (get_statistics [c7Vac] "аналитик" [PKey.str "Москва"]).prof_salary
        = [(PKey.int 2022, 150000)]
    ∧ (get_statistics [c7Vac] "аналитик" [PKey.str "Москва"]).all_count
        = [(PKey.int 2022, 1)] := by
  refine ⟨?_, ?_, ?_, by decide⟩
  · simp only [mkSalary, show lookupA "RUR" currency_to_rub = some 1 from rfl]
    norm_num [c7Salary, Salary.mk.injEq]
  · rw [show (get_statistics [c7Vac] "аналитик" [PKey.str "Москва"]).all_salary
        = get_average_salary_by_year [(PKey.int 2022, (1, 150000))] from rfl]
    simp [get_average_salary_by_year]
  · rw [show (get_statistics [c7Vac] "аналитик" [PKey.str "Москва"]).prof_salary
        = get_average_salary_by_year
            [(PKey.int 2022, (1, (0 : ℚ) + 150000))] from rfl]
    simp [get_average_salary_by_year]

/-- C8: on an empty CSV — and likewise on a header-only CSV — the script
body raises an uncaught `IndexError` in `fill_table` (which reads
`vacancies[0]` on the empty vacancy list) before the `len(head) == 0`
check is ever reached, so no "empty file" message and no output artifact is
produced. -/
theorem claim_C8 :
    runScript [] [] "таблица" = Except.error ScriptErr.indexError
    ∧ runScript []
        ["name", "salary_from", "salary_to", "salary_currency", "area_name",
         "published_at"] "таблица"
      = Except.error ScriptErr.indexError := by
  exact ⟨rfl, rfl⟩

/-- C9: for every header and every command string, the dispatch never
selects the chart-image mode: the duplicated `command == 'ексель'` branch
makes it unreachable. -/
theorem claim_C9 (head : List String) (command : String) :
    dispatch head command ≠ RunMode.image := by
  unfold dispatch
  split_ifs <;> simp

/-- C10: every accumulator helper coerces its key with `int()` — a key that
parses as a decimal integer is stored and looked up as that integer and the
original string key is untouched, any other key is used as the original
string; year strings like `"2022"` therefore become integer keys while
city names like `"Москва"` stay strings. -/
theorem claim_C10 (key : String) (d : List (PKey × Nat))
    (ds : List (PKey × (Nat × ℚ))) (salary : ℚ) :
    ((∀ n, toIntOpt key = some n → toKey key = PKey.int n)
      ∧ (toIntOpt key = none → toKey key = PKey.str key))
    ∧ lookupA (toKey key) (up_count key d)
        = some ((lookupA (toKey key) d).getD 0 + 1)
    ∧ (∀ k, k ≠ toKey key → lookupA k (up_count key d) = lookupA k d)
    ∧ lookupA (toKey key) (dict_init_count key d)
        = some ((lookupA (toKey key) d).getD 0)
    ∧ (∀ k, k ≠ toKey key → lookupA k (dict_init_count key d) = lookupA k d)
    ∧ lookupA (toKey key) (up_salary key ds salary)
        = some (((lookupA (toKey key) ds).getD (0, 0)).1 + 1,
                ((lookupA (toKey key) ds).getD (0, 0)).2 + salary)
    ∧ (∀ k, k ≠ toKey key → lookupA k (up_salary key ds salary) = lookupA k ds)
    ∧ lookupA (toKey key) (dict_init_salary key ds)
        = some ((lookupA (toKey key) ds).getD (0, 0))
    ∧ (∀ k, k ≠ toKey key → lookupA k (dict_init_salary key ds) = lookupA k ds)
    ∧ toKey "2022" = PKey.int 2022
    ∧ toKey "Москва" = PKey.str "Москва" := by
  refine ⟨⟨fun n hn => by simp [toKey, hn], fun hn => by simp [toKey, hn]⟩,
    up_count_lookup_self key d,
    fun k hk => up_count_lookup_ne key d hk,
    dict_init_count_lookup_self key d,
    fun k hk => dict_init_count_lookup_ne key d hk,
    up_salary_lookup_self key ds salary,
    fun k hk => up_salary_lookup_ne key ds salary hk,
    dict_init_salary_lookup_self key ds,
    fun k hk => dict_init_salary_lookup_ne key ds hk,
    by decide, by decide⟩

/-- Witness for C10: `"2022"` parses as an integer and is coerced to the
integer key 2022; `"Москва"` does not parse and stays a string key. -/
theorem claim_C10_witness :
    toKey "2022" = PKey.int 2022 ∧ toKey "Москва" = PKey.str "Москва" := by
  obtain ⟨⟨hsome, _⟩, _⟩ := claim_C10 "2022" [] [] 0
  obtain ⟨⟨_, hnone⟩, _⟩ := claim_C10 "Москва" [] [] 0
  exact ⟨hsome 2022 (by decide), hnone (by decide)⟩

end PyMain
